import Mathlib

/-!
Verification development for the Recharge browser extension background
service worker (background.js). The definitions below are a shallow
embedding of the alarm/notification orchestration core: the water-log
counter serializer (processWaterLogQueue, handleWaterLogRetry), the
alarm reconciler (updateAlarms), the notification construction
(createNotification, the onAlarm listener) and the one-shot timer
message handlers. Asynchronous callback chains become explicit state
passing driven by event lists; storage read/write outcomes are injected
as boolean fault schedules.
-/

/-! ### Constants from background.js -/

def WATER_LOG_MAX_RETRIES : Nat := 5

def WATER_LOG_RETRY_DELAY_MS : Nat := 500

def ONE_TIME_MIN : Int := 1

def ONE_TIME_MAX : Int := 120

def REPEATING_INTERVAL_MIN : Int := 0

def REPEATING_INTERVAL_MAX : Int := 60

def DEFAULT_SOUND_ENABLED : Bool := true

/-! ### Water log counter serializer

Embeds the in-memory queue (waterLogQueue), the stored daily counter
(waterLogCount / waterLogDate keys of chrome.storage.sync) and the
processing loop of processWaterLogQueue. Each queued operation carries
its retry counter (the attempts field of the queued operation object).
The asynchronous structure is captured by a phase: idle means the next
storage access of the head operation is the read; afterRead n means the
read completed, the incremented count n was computed, and the pending
access is the write. External nondeterminism is an event list: click
events (water notification button 0) append an operation to the queue;
io events resolve the pending storage access with success or failure.
-/

structure WaterOp where
  attempts : Nat
deriving DecidableEq, Repr

structure SyncStore where
  waterLogCount : Nat
  waterLogDate : String
deriving DecidableEq, Repr

inductive Phase where
  | idle : Phase
  | afterRead (newCount : Nat) : Phase
deriving DecidableEq, Repr

structure SerializerState where
  waterLogQueue : List WaterOp
  store : SyncStore
  phase : Phase
  sentCounts : List Nat
  droppedOps : Nat
  retryDelaysMs : List Nat
deriving DecidableEq, Repr

inductive SEvent where
  | click : SEvent
  | io (ok : Bool) : SEvent
deriving DecidableEq, Repr

/-- The date-reset rule of processWaterLogQueue: the count observed
before the increment is 0 whenever the stored date key differs from
today (lazy reset), otherwise the stored count. -/
def effectiveCount (today : String) (st : SyncStore) : Nat :=
  if st.waterLogDate = today then st.waterLogCount else 0

/-- handleWaterLogRetry: increments the attempts counter of the
operation and reports whether a delayed retry will be attempted
(true iff the incremented counter does not exceed the cap). -/
def handleWaterLogRetry (op : WaterOp) : WaterOp × Bool :=
  let op' : WaterOp := ⟨op.attempts + 1⟩
  (op', decide (op'.attempts ≤ WATER_LOG_MAX_RETRIES))

/-- The failure branch shared by the read and write callbacks of
processWaterLogQueue: on a storage failure, run handleWaterLogRetry on
the head operation; if no further retry is allowed, drop the operation
from the queue; otherwise keep it at the head with its incremented
attempts counter and record the scheduled 500 ms delayed retry. -/
def waterLogFailureStep (s : SerializerState) (op : WaterOp) (rest : List WaterOp) :
    SerializerState :=
  let (op', willRetry) := handleWaterLogRetry op
  if willRetry then
    { s with waterLogQueue := op' :: rest,
             retryDelaysMs := s.retryDelaysMs ++ [WATER_LOG_RETRY_DELAY_MS] }
  else
    { s with waterLogQueue := rest, droppedOps := s.droppedOps + 1 }

/-- One transition of the serializer. A click pushes a fresh operation
(attempts 0) onto the queue, as the onButtonClicked listener does. An io
event resolves the pending storage access of the head operation: in the
idle phase it is the read of the counter (success computes the
incremented count through the lazy date reset), in the afterRead phase
it is the write (success stores the new count with today as the date
key, removes the operation from the head of the queue and sends the
waterLogged message with the new count). Failures go through
waterLogFailureStep. An io event with an empty queue is a no-op. -/
def stepSerializer (today : String) (s : SerializerState) (e : SEvent) : SerializerState :=
  match e with
  | .click => { s with waterLogQueue := s.waterLogQueue ++ [⟨0⟩] }
  | .io ok =>
    match s.waterLogQueue with
    | [] => s
    | op :: rest =>
      match s.phase with
      | .idle =>
        if ok then
          { s with phase := .afterRead (effectiveCount today s.store + 1) }
        else
          waterLogFailureStep s op rest
      | .afterRead n =>
        if ok then
          { s with waterLogQueue := rest,
                   store := ⟨n, today⟩,
                   sentCounts := s.sentCounts ++ [n],
                   phase := .idle }
        else
          { (waterLogFailureStep s op rest) with phase := .idle }

def runSerializer (today : String) (s : SerializerState) (evs : List SEvent) :
    SerializerState :=
  evs.foldl (stepSerializer today) s

def initSerializer (today : String) : SerializerState :=
  ⟨[], ⟨0, today⟩, .idle, [], 0, []⟩

def clickCount1 : SEvent → Nat
  | .click => 1
  | .io _ => 0

def clickCount (evs : List SEvent) : Nat :=
  (evs.map clickCount1).sum

/-- One synchronous invocation chain of processWaterLogQueue: every
callback (read success, read failure, write success, write failure)
ends by resetting the processing flag and immediately calling
processWaterLogQueue again, so a single chain keeps consuming storage
outcomes until the queue is empty. The fault schedule lists the
outcomes of the successive storage accesses (true means failure);
accesses beyond the list succeed. Fuel bounds the recursion. -/
def processWaterLogChain (today : String) : Nat → List Bool → SerializerState →
    SerializerState
  | 0, _, s => s
  | fuel + 1, faults, s =>
    if s.waterLogQueue.isEmpty then s
    else
      processWaterLogChain today fuel faults.tail
        (stepSerializer today s (.io (!faults.headD false)))

/-- Invariant of the serializer: the stored date key is today, and in
the afterRead phase the computed count is exactly the stored count plus
one while the operation being processed is still at the head of the
queue. -/
def serializerInv (today : String) (s : SerializerState) : Prop :=
  s.store.waterLogDate = today ∧
  ∀ n, s.phase = .afterRead n →
    n = s.store.waterLogCount + 1 ∧ s.waterLogQueue ≠ []

/-! ### Alarm reconciler (updateAlarms)

The reconciler iterates over the four repeating alarm kinds, reading
the per-kind enabled flag and interval from the settings record, the
set of currently scheduled alarms (chrome.alarms.getAll, oneTime
excluded) and the persisted last-applied snapshot (alarmStateV1 in
chrome.storage.local, possibly missing a kind). Its decision per kind
is embedded as an AlarmAction. -/

inductive AlarmType where
  | blink | water | up | stretch
deriving DecidableEq, Repr

structure Settings where
  blinkEnabled : Bool
  blinkInterval : Int
  waterEnabled : Bool
  waterInterval : Int
  upEnabled : Bool
  upInterval : Int
  stretchEnabled : Bool
  stretchInterval : Int
  soundEnabled : Bool
deriving DecidableEq, Repr

def Settings.enabledOf (s : Settings) : AlarmType → Bool
  | .blink => s.blinkEnabled
  | .water => s.waterEnabled
  | .up => s.upEnabled
  | .stretch => s.stretchEnabled

def Settings.intervalOf (s : Settings) : AlarmType → Int
  | .blink => s.blinkInterval
  | .water => s.waterInterval
  | .up => s.upInterval
  | .stretch => s.stretchInterval

/-- isValidRepeatingInterval: the value is a number between 0 and 60
inclusive (NaN is not representable in the integer model). -/
def isValidRepeatingInterval (v : Int) : Bool :=
  decide (REPEATING_INTERVAL_MIN ≤ v) && decide (v ≤ REPEATING_INTERVAL_MAX)

inductive AlarmAction where
  | clear : AlarmAction
  | create (delayInMinutes : Int) : AlarmAction
  | reschedule (delayInMinutes : Int) : AlarmAction
  | keep : AlarmAction
deriving DecidableEq, Repr

/-- The per-kind body of updateAlarms. In source order: if the kind is
disabled or its interval is not positive, clear the alarm; if the
interval is invalid, log and clear; if no alarm with that name exists,
create one with the interval as relative delay; otherwise reschedule
(clear, then create inside the clear callback) exactly when the
persisted snapshot holds an entry for the kind whose enabled flag or
interval differs from the desired pair, and do nothing otherwise (in
particular when the snapshot has no entry for the kind). -/
def alarmActionFor (enabled : Bool) (interval : Int) (alarmExists : Bool)
    (previous : Option (Bool × Int)) : AlarmAction :=
  if !enabled || interval ≤ 0 then .clear
  else if !(isValidRepeatingInterval interval) then .clear
  else if !alarmExists then .create interval
  else
    match previous with
    | some (prevEnabled, prevInterval) =>
      if prevEnabled != enabled || prevInterval != interval then .reschedule interval
      else .keep
    | none => .keep

/-- Whether the action issues a chrome.alarms.clear call for the kind. -/
def issuesCancel : AlarmAction → Bool
  | .clear => true
  | .reschedule _ => true
  | _ => false

/-- Whether the action issues a chrome.alarms.create call for the kind. -/
def issuesCreate : AlarmAction → Bool
  | .create _ => true
  | .reschedule _ => true
  | _ => false

/-- Whether an alarm for the kind exists after the action completes,
assuming the timer service reports no failures (a clear of an existing
alarm succeeds with wasCleared true, so the reschedule path recreates
the alarm it cleared). -/
def alarmExistsAfter (alarmExists : Bool) : AlarmAction → Bool
  | .clear => false
  | .create _ => true
  | .reschedule _ => alarmExists
  | .keep => alarmExists

structure UpdateAlarmsResult where
  action : AlarmType → AlarmAction
  alarmAfter : AlarmType → Bool
  nextState : AlarmType → Bool × Int

/-- updateAlarms: computes the per-kind action, the resulting alarm
presence (under failure-free timer service) and the snapshot written
back to storage (the desired enabled flag and interval of every kind). -/
def updateAlarms (settings : Settings) (alarmExists : AlarmType → Bool)
    (previousState : AlarmType → Option (Bool × Int)) : UpdateAlarmsResult :=
  { action := fun t =>
      alarmActionFor (settings.enabledOf t) (settings.intervalOf t)
        (alarmExists t) (previousState t)
    alarmAfter := fun t =>
      alarmExistsAfter (alarmExists t)
        (alarmActionFor (settings.enabledOf t) (settings.intervalOf t)
          (alarmExists t) (previousState t))
    nextState := fun t => (settings.enabledOf t, settings.intervalOf t) }

/-! ### Notifications (createNotification and the onAlarm listener) -/

inductive AlarmName where
  | blink | water | up | stretch | oneTime
deriving DecidableEq, Repr

def NOTIFICATION_MESSAGES : AlarmName → String
  | .blink => "Time to blink your eyes! Look away from the screen for 20 seconds."
  | .water => "Time to drink some water! Stay hydrated!"
  | .up => "Time to get up and walk around for a few minutes!"
  | .stretch => "Time to do some stretching exercises!"
  | .oneTime => "Your timer is up!"

/-- The options argument of createNotification: optional overrides of
the base options plus the custom isWater marker that is extracted
before the Chrome API call. -/
structure NotifOpts where
  silent : Option Bool
  buttons : Option (List String)
  requireInteraction : Option Bool
  isWater : Bool
deriving DecidableEq, Repr

/-- The notification handed to chrome.notifications.create. -/
structure CreatedNotification where
  id : Option String
  title : String
  message : String
  silent : Bool
  buttons : Option (List String)
  requireInteraction : Option Bool
deriving DecidableEq, Repr

/-- createNotification: base options carry the per-kind message and a
silent flag equal to the negation of the (defaulted) sound setting;
fields supplied in the options argument override the base; an id of the
form water_ followed by the current timestamp is used exactly when
isWater is set, otherwise the id is left undefined. -/
def createNotification (alarmName : AlarmName) (soundEnabled : Option Bool)
    (options : NotifOpts) (nowMs : Int) : CreatedNotification :=
  { id := if options.isWater then some ("water_" ++ toString nowMs) else none
    title := "Recharge"
    message := NOTIFICATION_MESSAGES alarmName
    silent := options.silent.getD (!(soundEnabled.getD DEFAULT_SOUND_ENABLED))
    buttons := options.buttons
    requireInteraction := options.requireInteraction }

/-- The notification built by the onAlarm listener for a firing alarm:
the stored soundEnabled value is defaulted to true; the water branch
passes the two buttons, the platform-dependent requireInteraction flag
and the isWater marker; every branch overrides silent with true on
macOS and the negation of the sound setting elsewhere. -/
def onAlarmNotification (name : AlarmName) (storedSoundEnabled : Option Bool)
    (isMacOS : Bool) (nowMs : Int) : CreatedNotification :=
  let soundEnabled := storedSoundEnabled.getD DEFAULT_SOUND_ENABLED
  if name = .water then
    createNotification name (some soundEnabled)
      { silent := some (if isMacOS then true else !soundEnabled)
        buttons := some ["Log Water", "Skip"]
        requireInteraction := some (!isMacOS)
        isWater := true } nowMs
  else
    createNotification name (some soundEnabled)
      { silent := some (if isMacOS then true else !soundEnabled)
        buttons := none
        requireInteraction := none
        isWater := false } nowMs

/-- The startsWith test of the onButtonClicked listener, embedded on
the character data of the notification id. -/
def startsWithWater (notificationId : String) : Bool :=
  match notificationId.data with
  | 'w' :: 'a' :: 't' :: 'e' :: 'r' :: '_' :: _ => true
  | _ => false

/-- The chrome.notifications.onButtonClicked listener: for an id with
the water_ kind marker, button index 0 pushes one fresh increment
operation onto the water log queue and any button clears the
notification; other ids are ignored. Returns the updated queue and
whether the notification was cleared. -/
def onButtonClicked (notificationId : String) (buttonIndex : Nat)
    (queue : List WaterOp) : List WaterOp × Bool :=
  if startsWithWater notificationId then
    (if buttonIndex = 0 then queue ++ [⟨0⟩] else queue, true)
  else
    (queue, false)

/-! ### One-shot timer message handlers -/

/-- isValidAlarmInterval: the value is a number between 1 and 120
inclusive; none stands for a non-numeric value (NaN). -/
def isValidAlarmInterval : Option Int → Bool
  | none => false
  | some v => decide (ONE_TIME_MIN ≤ v) && decide (v ≤ ONE_TIME_MAX)

structure OneTimeTimerState where
  scheduledTime : Int
  durationMinutes : Int
deriving DecidableEq, Repr

structure BgTimerState where
  oneTimeAlarm : Option Int
  oneTimeStored : Option OneTimeTimerState
  timerCompleteCount : Nat
deriving DecidableEq, Repr

inductive OneTimeResponse where
  | ok : OneTimeResponse
  | invalidTimerValue : OneTimeResponse
deriving DecidableEq, Repr

/-- The createOneTimeTimer branch of the onMessage listener: a valid
minutes value arms the oneTime alarm with that delay and persists the
resumption record with scheduledTime computed from the current time;
an invalid value leaves the state untouched and answers with the
invalid_timer_value error. -/
def handleCreateOneTimeTimer (nowMs : Int) (minutes : Option Int)
    (s : BgTimerState) : BgTimerState × OneTimeResponse :=
  match minutes with
  | some m =>
    if isValidAlarmInterval (some m) then
      ({ s with oneTimeAlarm := some m,
                oneTimeStored := some ⟨nowMs + m * 60 * 1000, m⟩ }, .ok)
    else
      (s, .invalidTimerValue)
  | none => (s, .invalidTimerValue)

/-- The cancelOneTimeTimer branch of the onMessage listener: clears the
oneTime alarm, removes the persisted resumption record and answers ok
regardless of whether a timer existed. -/
def handleCancelOneTimeTimer (s : BgTimerState) : BgTimerState × OneTimeResponse :=
  ({ s with oneTimeAlarm := none, oneTimeStored := none }, .ok)

inductive BgEvent where
  | createTimer (nowMs : Int) (minutes : Option Int) : BgEvent
  | cancelTimer : BgEvent
  | fireOneTime : BgEvent
deriving DecidableEq, Repr

/-- One transition of the one-shot timer lifecycle. The timer service
only fires an armed alarm, so a fire event with no armed oneTime alarm
is a no-op; a fire of an armed alarm sends the timerComplete message,
removes the persisted resumption record and consumes the alarm (the
oneTime branch of the onAlarm listener never re-arms). -/
def stepTimer (s : BgTimerState) : BgEvent → BgTimerState
  | .createTimer nowMs minutes => (handleCreateOneTimeTimer nowMs minutes s).1
  | .cancelTimer => (handleCancelOneTimeTimer s).1
  | .fireOneTime =>
    match s.oneTimeAlarm with
    | some _ =>
      { s with oneTimeAlarm := none, oneTimeStored := none,
               timerCompleteCount := s.timerCompleteCount + 1 }
    | none => s

def runTimer (s : BgTimerState) (evs : List BgEvent) : BgTimerState :=
  evs.foldl stepTimer s

def isCreateEvent : BgEvent → Bool
  | .createTimer _ _ => true
  | _ => false

/-! ### Helper lemmas -/

theorem stepSerializer_measure (today : String) (s : SerializerState) (e : SEvent)
    (h : serializerInv today s) :
    serializerInv today (stepSerializer today s e) ∧
    (stepSerializer today s e).store.waterLogCount
        + (stepSerializer today s e).waterLogQueue.length
        + (stepSerializer today s e).droppedOps
      = s.store.waterLogCount + s.waterLogQueue.length + s.droppedOps + clickCount1 e ∧
    (stepSerializer today s e).sentCounts.length + s.store.waterLogCount
      = s.sentCounts.length + (stepSerializer today s e).store.waterLogCount ∧
    s.droppedOps ≤ (stepSerializer today s e).droppedOps := by
  obtain ⟨hdate, hphase⟩ := h
  obtain ⟨q, store, ph, sent, dr, rd⟩ := s
  cases e with
  | click =>
    refine ⟨⟨?_, ?_⟩, ?_, ?_, ?_⟩
    · simpa [stepSerializer] using hdate
    · intro m hm
      simp only [stepSerializer] at hm
      rcases hphase m hm with ⟨h1, h2⟩
      exact ⟨by simpa [stepSerializer] using h1, by simp [stepSerializer]⟩
    · simp [stepSerializer, clickCount1] <;> omega
    · simp [stepSerializer]
    · simp [stepSerializer]
  | io ok =>
    cases q with
    | nil =>
      exact ⟨⟨hdate, hphase⟩, by simp [stepSerializer, clickCount1],
        by simp [stepSerializer], by simp [stepSerializer]⟩
    | cons op rest =>
      cases ph with
      | idle =>
        cases ok with
        | true =>
          refine ⟨⟨?_, ?_⟩, ?_, ?_, ?_⟩
          · simpa [stepSerializer] using hdate
          · intro m hm
            simp only [stepSerializer] at hm
            have hm' : effectiveCount today store + 1 = m := by simpa using hm
            subst hm'
            refine ⟨?_, by simp [stepSerializer]⟩
            have hd : store.waterLogDate = today := hdate
            show effectiveCount today store + 1 = store.waterLogCount + 1
            unfold effectiveCount
            rw [if_pos hd]
          · simp [stepSerializer, clickCount1] <;> omega
          · simp [stepSerializer]
          · simp [stepSerializer]
        | false =>
          by_cases hcap : op.attempts + 1 ≤ WATER_LOG_MAX_RETRIES
          · refine ⟨⟨?_, ?_⟩, ?_, ?_, ?_⟩
            · simpa [stepSerializer, waterLogFailureStep, handleWaterLogRetry, hcap]
                using hdate
            · intro m hm
              simp [stepSerializer, waterLogFailureStep, handleWaterLogRetry, hcap] at hm
            · simp [stepSerializer, waterLogFailureStep, handleWaterLogRetry, hcap,
                clickCount1] <;> omega
            · simp [stepSerializer, waterLogFailureStep, handleWaterLogRetry, hcap]
            · simp [stepSerializer, waterLogFailureStep, handleWaterLogRetry, hcap]
          · refine ⟨⟨?_, ?_⟩, ?_, ?_, ?_⟩
            · simpa [stepSerializer, waterLogFailureStep, handleWaterLogRetry, hcap]
                using hdate
            · intro m hm
              simp [stepSerializer, waterLogFailureStep, handleWaterLogRetry, hcap] at hm
            · simp [stepSerializer, waterLogFailureStep, handleWaterLogRetry, hcap,
                clickCount1] <;> omega
            · simp [stepSerializer, waterLogFailureStep, handleWaterLogRetry, hcap]
            · simp [stepSerializer, waterLogFailureStep, handleWaterLogRetry, hcap]
      | afterRead n =>
        obtain ⟨hn, -⟩ := hphase n rfl
        cases ok with
        | true =>
          refine ⟨⟨?_, ?_⟩, ?_, ?_, ?_⟩
          · simp [stepSerializer]
          · intro m hm
            simp [stepSerializer] at hm
          · simp [stepSerializer, clickCount1, hn] <;> omega
          · simp [stepSerializer, hn] <;> omega
          · simp [stepSerializer]
        | false =>
          by_cases hcap : op.attempts + 1 ≤ WATER_LOG_MAX_RETRIES
          · refine ⟨⟨?_, ?_⟩, ?_, ?_, ?_⟩
            · simpa [stepSerializer, waterLogFailureStep, handleWaterLogRetry, hcap]
                using hdate
            · intro m hm
              simp [stepSerializer, waterLogFailureStep, handleWaterLogRetry, hcap] at hm
            · simp [stepSerializer, waterLogFailureStep, handleWaterLogRetry, hcap,
                clickCount1] <;> omega
            · simp [stepSerializer, waterLogFailureStep, handleWaterLogRetry, hcap]
            · simp [stepSerializer, waterLogFailureStep, handleWaterLogRetry, hcap]
          · refine ⟨⟨?_, ?_⟩, ?_, ?_, ?_⟩
            · simpa [stepSerializer, waterLogFailureStep, handleWaterLogRetry, hcap]
                using hdate
            · intro m hm
              simp [stepSerializer, waterLogFailureStep, handleWaterLogRetry, hcap] at hm
            · simp [stepSerializer, waterLogFailureStep, handleWaterLogRetry, hcap,
                clickCount1] <;> omega
            · simp [stepSerializer, waterLogFailureStep, handleWaterLogRetry, hcap]
            · simp [stepSerializer, waterLogFailureStep, handleWaterLogRetry, hcap]

theorem runSerializer_measure (today : String) :
    ∀ (evs : List SEvent) (s : SerializerState), serializerInv today s →
    serializerInv today (runSerializer today s evs) ∧
    (runSerializer today s evs).store.waterLogCount
        + (runSerializer today s evs).waterLogQueue.length
        + (runSerializer today s evs).droppedOps
      = s.store.waterLogCount + s.waterLogQueue.length + s.droppedOps + clickCount evs ∧
    (runSerializer today s evs).sentCounts.length + s.store.waterLogCount
      = s.sentCounts.length + (runSerializer today s evs).store.waterLogCount ∧
    s.droppedOps ≤ (runSerializer today s evs).droppedOps := by
  intro evs
  induction evs with
  | nil =>
    intro s h
    exact ⟨h, by simp [runSerializer, clickCount], by simp [runSerializer], le_refl _⟩
  | cons e evs ih =>
    intro s h
    have hstep := stepSerializer_measure today s e h
    have hrest := ih (stepSerializer today s e) hstep.1
    have hrun : runSerializer today s (e :: evs)
        = runSerializer today (stepSerializer today s e) evs := by
      simp [runSerializer]
    rw [hrun]
    refine ⟨hrest.1, ?_, ?_, le_trans hstep.2.2.2 hrest.2.2.2⟩
    · have := hrest.2.1
      have := hstep.2.1
      simp only [clickCount, List.map_cons, List.sum_cons] at *
      omega
    · have := hrest.2.2.1
      have := hstep.2.2.1
      omega

theorem stepSerializer_queue_shrink (today : String) (s : SerializerState) (e : SEvent)
    (hdrop : (stepSerializer today s e).droppedOps = s.droppedOps)
    (hlen : (stepSerializer today s e).waterLogQueue.length < s.waterLogQueue.length) :
    e = SEvent.io true ∧ ∃ n, s.phase = Phase.afterRead n := by
  obtain ⟨q, store, ph, sent, dr, rd⟩ := s
  cases e with
  | click =>
    exfalso
    simp [stepSerializer] at hlen
  | io ok =>
    cases q with
    | nil => simp [stepSerializer] at hlen
    | cons op rest =>
      cases ph with
      | idle =>
        cases ok with
        | true => simp [stepSerializer] at hlen
        | false =>
          by_cases hcap : op.attempts + 1 ≤ WATER_LOG_MAX_RETRIES
          · exfalso
            simp [stepSerializer, waterLogFailureStep, handleWaterLogRetry, hcap] at hlen
          · exfalso
            simp [stepSerializer, waterLogFailureStep, handleWaterLogRetry, hcap] at hdrop
      | afterRead n =>
        cases ok with
        | true => exact ⟨rfl, n, rfl⟩
        | false =>
          by_cases hcap : op.attempts + 1 ≤ WATER_LOG_MAX_RETRIES
          · exfalso
            simp [stepSerializer, waterLogFailureStep, handleWaterLogRetry, hcap] at hlen
          · exfalso
            simp [stepSerializer, waterLogFailureStep, handleWaterLogRetry, hcap] at hdrop

theorem initSerializer_inv (today : String) : serializerInv today (initSerializer today) := by
  constructor
  · rfl
  · intro n hn
    cases hn

/-- C1: starting from the stored state with count 0 and date key today,
for every interleaving of enqueued increment requests (clicks on button
0 of a water notification) with storage read/write outcomes, including
injected transient failures, once the queue has drained with no
operation dropped (every per-operation retry count stayed below the
cap), the stored count equals the number N of enqueued requests and
exactly N waterLogged (counter-updated) notifications were sent; and in
any single transition an operation leaves the queue without the dropped
counter growing only on an acknowledged write (success of the io event
in the write phase). -/
theorem C1_counter_serializer_drain (today : String) (evs : List SEvent)
    (hq : (runSerializer today (initSerializer today) evs).waterLogQueue = [])
    (hd : (runSerializer today (initSerializer today) evs).droppedOps = 0) :
    (runSerializer today (initSerializer today) evs).store.waterLogCount = clickCount evs ∧
    (runSerializer today (initSerializer today) evs).store.waterLogDate = today ∧
    (runSerializer today (initSerializer today) evs).sentCounts.length = clickCount evs ∧
    ∀ (s : SerializerState) (e : SEvent),
      (stepSerializer today s e).droppedOps = s.droppedOps →
      (stepSerializer today s e).waterLogQueue.length < s.waterLogQueue.length →
      e = SEvent.io true ∧ ∃ n, s.phase = Phase.afterRead n := by
  obtain ⟨hfin, hmeas, hsent, -⟩ :=
    runSerializer_measure today evs (initSerializer today) (initSerializer_inv today)
  have hlen : (runSerializer today (initSerializer today) evs).waterLogQueue.length = 0 := by
    rw [hq]; rfl
  have h1 : (initSerializer today).store.waterLogCount = 0 := rfl
  have h2 : (initSerializer today).waterLogQueue.length = 0 := rfl
  have h3 : (initSerializer today).droppedOps = 0 := rfl
  have h4 : (initSerializer today).sentCounts.length = 0 := rfl
  refine ⟨?_, hfin.1, ?_, fun s e => stepSerializer_queue_shrink today s e⟩ <;> omega

theorem C1_counter_serializer_drain_witness :
    (runSerializer "d" (initSerializer "d")
        [SEvent.click, SEvent.io true, SEvent.io true]).waterLogQueue = [] ∧
    (runSerializer "d" (initSerializer "d")
        [SEvent.click, SEvent.io true, SEvent.io true]).droppedOps = 0 ∧
    (runSerializer "d" (initSerializer "d")
        [SEvent.click, SEvent.io true, SEvent.io true]).store.waterLogCount
      = clickCount [SEvent.click, SEvent.io true, SEvent.io true] ∧
    (runSerializer "d" (initSerializer "d")
        [SEvent.click, SEvent.io true, SEvent.io true]).sentCounts.length
      = clickCount [SEvent.click, SEvent.io true, SEvent.io true] :=
  ⟨by decide, by decide,
    (C1_counter_serializer_drain "d" [SEvent.click, SEvent.io true, SEvent.io true]
      (by decide) (by decide)).1,
    (C1_counter_serializer_drain "d" [SEvent.click, SEvent.io true, SEvent.io true]
      (by decide) (by decide)).2.2.1⟩

/-- Concrete starting state for exercising the failure path: one queued
operation with no prior attempts, stored count 0 dated today. -/
def retryChainStart : SerializerState := ⟨[⟨0⟩], ⟨0, "d"⟩, .idle, [], 0, []⟩

/-- C4 counterexample: the claim says that after a sub-cap storage
failure a retry is scheduled AND processing stops until the 500 ms
backoff elapses. In the code every failure callback resets the
processing flag and immediately calls processWaterLogQueue again, so a
single synchronous invocation chain (during which no backoff time can
elapse) does not stop at the post-failure state: with a fault schedule
whose first access fails and the rest succeed, the chain immediately
re-attempts and completes the operation (count 1, empty queue) even
though one 500 ms retry was scheduled. -/
theorem C4_counterexample :
    processWaterLogChain "d" 5 [true] retryChainStart
        ≠ stepSerializer "d" retryChainStart (SEvent.io false) ∧
    (processWaterLogChain "d" 5 [true] retryChainStart).store.waterLogCount = 1 ∧
    (processWaterLogChain "d" 5 [true] retryChainStart).waterLogQueue = [] ∧
    (processWaterLogChain "d" 5 [true] retryChainStart).retryDelaysMs
      = [WATER_LOG_RETRY_DELAY_MS] := by
  refine ⟨by decide, by decide, by decide, by decide⟩

/-- C4 (amended): on a storage read or write failure the retry counter
of the head operation is incremented with cap 5 attempts; if the cap is
exceeded the operation is dropped and processing proceeds with the rest
of the queue; otherwise the operation stays at the head with its
incremented counter and a retry of the whole queue is scheduled after
the fixed 500 ms backoff — but processing also continues immediately:
the invocation chain goes on consuming the next storage outcome instead
of stopping until the backoff elapses. -/
theorem C4_retry_policy (today : String) (s : SerializerState) (op : WaterOp)
    (rest : List WaterOp) (hq : s.waterLogQueue = op :: rest) :
    (WATER_LOG_MAX_RETRIES < op.attempts + 1 →
      (stepSerializer today s (.io false)).waterLogQueue = rest ∧
      (stepSerializer today s (.io false)).droppedOps = s.droppedOps + 1 ∧
      (stepSerializer today s (.io false)).retryDelaysMs = s.retryDelaysMs) ∧
    (op.attempts + 1 ≤ WATER_LOG_MAX_RETRIES →
      (stepSerializer today s (.io false)).waterLogQueue = ⟨op.attempts + 1⟩ :: rest ∧
      (stepSerializer today s (.io false)).droppedOps = s.droppedOps ∧
      (stepSerializer today s (.io false)).retryDelaysMs
        = s.retryDelaysMs ++ [WATER_LOG_RETRY_DELAY_MS]) ∧
    (stepSerializer today s (.io false)).store = s.store ∧
    ∀ (fuel : Nat) (faults : List Bool),
      processWaterLogChain today (fuel + 1) faults s
        = processWaterLogChain today fuel faults.tail
            (stepSerializer today s (.io (!faults.headD false))) := by
  obtain ⟨q, store, ph, sent, dr, rd⟩ := s
  have hq' : q = op :: rest := hq
  subst hq'
  refine ⟨?_, ?_, ?_, ?_⟩
  · intro hcap
    have hcap' : ¬ (op.attempts + 1 ≤ WATER_LOG_MAX_RETRIES) := by omega
    cases ph <;>
      refine ⟨?_, ?_, ?_⟩ <;>
        simp [stepSerializer, waterLogFailureStep, handleWaterLogRetry, hcap']
  · intro hcap
    cases ph <;>
      refine ⟨?_, ?_, ?_⟩ <;>
        simp [stepSerializer, waterLogFailureStep, handleWaterLogRetry, hcap]
  · by_cases hcap : op.attempts + 1 ≤ WATER_LOG_MAX_RETRIES <;>
      cases ph <;>
        simp [stepSerializer, waterLogFailureStep, handleWaterLogRetry, hcap]
  · intro fuel faults
    rw [processWaterLogChain]
    simp

theorem C4_retry_policy_witness :
    (stepSerializer "d" ⟨[⟨5⟩], ⟨0, "d"⟩, .idle, [], 0, []⟩ (.io false)).waterLogQueue = [] ∧
    (stepSerializer "d" ⟨[⟨5⟩], ⟨0, "d"⟩, .idle, [], 0, []⟩ (.io false)).droppedOps = 0 + 1 ∧
    (stepSerializer "d" ⟨[⟨5⟩], ⟨0, "d"⟩, .idle, [], 0, []⟩ (.io false)).retryDelaysMs = [] :=
  (C4_retry_policy "d" ⟨[⟨5⟩], ⟨0, "d"⟩, .idle, [], 0, []⟩ ⟨5⟩ [] rfl).1 (by decide)

/-- C5: when the stored date key differs from today, the effective
count observed by an increment operation before incrementing is 0
regardless of the stored count, and after one successful increment
(read success then write success) the stored state is exactly count 1
with today as date key. -/
theorem C5_lazy_reset (today dk : String) (count : Nat) (op : WaterOp)
    (rest : List WaterOp) (sent : List Nat) (dr : Nat) (rd : List Nat)
    (hneq : dk ≠ today) :
    effectiveCount today ⟨count, dk⟩ = 0 ∧
    stepSerializer today ⟨op :: rest, ⟨count, dk⟩, .idle, sent, dr, rd⟩ (.io true)
      = ⟨op :: rest, ⟨count, dk⟩, .afterRead 1, sent, dr, rd⟩ ∧
    stepSerializer today ⟨op :: rest, ⟨count, dk⟩, .afterRead 1, sent, dr, rd⟩ (.io true)
      = ⟨rest, ⟨1, today⟩, .idle, sent ++ [1], dr, rd⟩ := by
  have h0 : effectiveCount today ⟨count, dk⟩ = 0 := by
    unfold effectiveCount
    exact if_neg hneq
  exact ⟨h0, by simp [stepSerializer, h0], rfl⟩

theorem C5_lazy_reset_witness :
    effectiveCount "b" ⟨7, "a"⟩ = 0 ∧
    stepSerializer "b" ⟨[⟨0⟩], ⟨7, "a"⟩, .idle, [], 0, []⟩ (.io true)
      = ⟨[⟨0⟩], ⟨7, "a"⟩, .afterRead 1, [], 0, []⟩ ∧
    stepSerializer "b" ⟨[⟨0⟩], ⟨7, "a"⟩, .afterRead 1, [], 0, []⟩ (.io true)
      = ⟨[], ⟨1, "b"⟩, .idle, [1], 0, []⟩ := by
  have h := C5_lazy_reset "b" "a" 7 ⟨0⟩ [] [] 0 [] (by decide)
  exact h

/-- C2: for every reminder kind, desired enabled flag and interval in
the range 0 to 60, after updateAlarms completes with no timer-service
failures an active alarm for the kind exists iff the kind is enabled
with a positive interval, for every prior alarm set and every persisted
snapshot. -/
theorem C2_active_alarm_iff (settings : Settings) (alarmExists : AlarmType → Bool)
    (previousState : AlarmType → Option (Bool × Int)) (t : AlarmType)
    (h0 : 0 ≤ settings.intervalOf t) (h60 : settings.intervalOf t ≤ 60) :
    (updateAlarms settings alarmExists previousState).alarmAfter t
      = (settings.enabledOf t && decide (0 < settings.intervalOf t)) := by
  simp only [updateAlarms]
  by_cases he : settings.enabledOf t
  · by_cases hi : settings.intervalOf t ≤ 0
    · have hnpos : ¬ (0 < settings.intervalOf t) := by omega
      simp [alarmActionFor, alarmExistsAfter, he, hi, hnpos]
    · have hpos : 0 < settings.intervalOf t := by omega
      have hvalid : isValidRepeatingInterval (settings.intervalOf t) = true := by
        simp only [isValidRepeatingInterval, REPEATING_INTERVAL_MIN,
          REPEATING_INTERVAL_MAX, Bool.and_eq_true, decide_eq_true_eq]
        exact ⟨h0, h60⟩
      cases hex : alarmExists t with
      | false => simp [alarmActionFor, alarmExistsAfter, he, hi, hvalid, hex, hpos]
      | true =>
        rcases hprev : previousState t with - | ⟨pe, pi⟩
        · simp [alarmActionFor, alarmExistsAfter, he, hi, hvalid, hex, hprev, hpos]
        · by_cases hdiff : (pe != settings.enabledOf t || pi != settings.intervalOf t) = true
          · simp [alarmActionFor, alarmExistsAfter, he, hi, hvalid, hex, hprev, hpos]
            have hcond : pe = false ∨ ¬ pi = settings.intervalOf t := by
              have hdiff' : pe ≠ settings.enabledOf t ∨ pi ≠ settings.intervalOf t := by
                simpa [bne_iff_ne] using hdiff
              rcases hdiff' with h | h
              · rw [he] at h
                exact Or.inl (by simpa using h)
              · exact Or.inr h
            rw [if_pos hcond]
          · simp [alarmActionFor, alarmExistsAfter, he, hi, hvalid, hex, hprev, hpos,
              Bool.not_eq_true] at hdiff ⊢
            simp [hdiff]
  · simp [alarmActionFor, alarmExistsAfter, he]

theorem C2_active_alarm_iff_witness :
    ((updateAlarms ⟨true, 30, false, 0, false, 0, false, 0, true⟩
        (fun _ => false) (fun _ => none)).alarmAfter AlarmType.blink
      = (Settings.enabledOf ⟨true, 30, false, 0, false, 0, false, 0, true⟩ AlarmType.blink
          && decide (0 < Settings.intervalOf ⟨true, 30, false, 0, false, 0, false, 0, true⟩
              AlarmType.blink))) :=
  C2_active_alarm_iff ⟨true, 30, false, 0, false, 0, false, 0, true⟩
    (fun _ => false) (fun _ => none) AlarmType.blink (by decide) (by decide)

/-- C3 counterexample: a kind can have an active alarm while the
desired configuration equals the persisted snapshot and yet a cancel
call is issued: with enabled false and interval 30 equal to the
snapshot entry, the code takes the disabled branch and calls
chrome.alarms.clear for the kind, so the claim as stated (no cancel
issued whenever desired equals snapshot for a kind with an active
timer) is false at this input. -/
theorem C3_counterexample :
    issuesCancel (alarmActionFor false 30 true (some (false, 30))) = true ∧
    alarmActionFor false 30 true (some (false, 30)) = AlarmAction.clear := by
  refine ⟨by decide, by decide⟩

/-- C3 (amended): for every reminder kind with an active timer whose
desired configuration is enabled with an interval in the valid positive
range, if the desired pair equals the persisted snapshot entry (for
example when only the global sound flag changed) then no cancel and no
create call is issued for the kind; and in general a cancel-then-create
reschedule is issued only when the snapshot holds an entry that differs
from the desired pair. -/
theorem C3_unchanged_snapshot_untouched (enabled : Bool) (interval : Int)
    (hen : enabled = true) (hpos : 0 < interval) (h60 : interval ≤ 60) :
    (issuesCancel (alarmActionFor enabled interval true (some (enabled, interval))) = false ∧
     issuesCreate (alarmActionFor enabled interval true (some (enabled, interval))) = false ∧
     alarmActionFor enabled interval true (some (enabled, interval)) = AlarmAction.keep) ∧
    ∀ (e : Bool) (i : Int) (ex : Bool) (prev : Option (Bool × Int)) (d : Int),
      alarmActionFor e i ex prev = AlarmAction.reschedule d →
      ∃ pe pi, prev = some (pe, pi) ∧ (pe ≠ e ∨ pi ≠ i) := by
  constructor
  · subst hen
    have hle : ¬ (interval ≤ 0) := by omega
    have hvalid : isValidRepeatingInterval interval = true := by
      simp only [isValidRepeatingInterval, REPEATING_INTERVAL_MIN,
        REPEATING_INTERVAL_MAX, Bool.and_eq_true, decide_eq_true_eq]
      omega
    refine ⟨?_, ?_, ?_⟩ <;>
      simp [alarmActionFor, issuesCancel, issuesCreate, hle, hvalid]
  · intro e i ex prev d h
    rcases prev with - | ⟨pe, pi⟩
    · exfalso
      simp only [alarmActionFor] at h
      split at h
      · cases h
      · split at h
        · cases h
        · split at h
          · cases h
          · cases h
    · simp only [alarmActionFor] at h
      split at h
      · cases h
      · split at h
        · cases h
        · split at h
          · cases h
          · split at h
            · next hcond =>
              refine ⟨pe, pi, rfl, ?_⟩
              simpa [bne_iff_ne] using hcond
            · cases h

theorem C3_unchanged_snapshot_untouched_witness :
    issuesCancel (alarmActionFor true 30 true (some (true, 30))) = false ∧
    issuesCreate (alarmActionFor true 30 true (some (true, 30))) = false ∧
    alarmActionFor true 30 true (some (true, 30)) = AlarmAction.keep :=
  (C3_unchanged_snapshot_untouched true 30 rfl (by decide) (by decide)).1

/-- C10: for a kind with an active timer, enabled and with a valid
positive interval, when the persisted snapshot has no entry for the
kind the reconciler issues no cancel and no create: the action is keep
and the existing alarm survives, whatever delay it was armed with. -/
theorem C10_missing_snapshot_keeps_alarm (interval : Int)
    (hpos : 0 < interval) (h60 : interval ≤ 60) :
    alarmActionFor true interval true none = AlarmAction.keep ∧
    issuesCancel (alarmActionFor true interval true none) = false ∧
    issuesCreate (alarmActionFor true interval true none) = false ∧
    alarmExistsAfter true (alarmActionFor true interval true none) = true := by
  have hle : ¬ (interval ≤ 0) := by omega
  have hvalid : isValidRepeatingInterval interval = true := by
    simp only [isValidRepeatingInterval, REPEATING_INTERVAL_MIN,
      REPEATING_INTERVAL_MAX, Bool.and_eq_true, decide_eq_true_eq]
    omega
  refine ⟨?_, ?_, ?_, ?_⟩ <;>
    simp [alarmActionFor, issuesCancel, issuesCreate, alarmExistsAfter, hle, hvalid]

theorem C10_missing_snapshot_keeps_alarm_witness :
    alarmActionFor true 45 true none = AlarmAction.keep ∧
    issuesCancel (alarmActionFor true 45 true none) = false ∧
    issuesCreate (alarmActionFor true 45 true none) = false ∧
    alarmExistsAfter true (alarmActionFor true 45 true none) = true :=
  C10_missing_snapshot_keeps_alarm 45 (by decide) (by decide)

/-- C6: a one-shot timer request with minutes outside the 1 to 120
range (in particular 0 or 121) or non-numeric is rejected: no alarm is
armed, no resumption state is persisted, and the invalid_timer_value
error is reported; a request inside the range arms the alarm with the
requested delay and persists the resumption record with scheduledTime
equal to now plus minutes in milliseconds. -/
theorem C6_one_time_validation (nowMs : Int) (minutes : Option Int) (s : BgTimerState) :
    isValidAlarmInterval none = false ∧
    (∀ m : Int, isValidAlarmInterval (some m) = true ↔ 1 ≤ m ∧ m ≤ 120) ∧
    (isValidAlarmInterval minutes = false →
      handleCreateOneTimeTimer nowMs minutes s = (s, .invalidTimerValue)) ∧
    (∀ m : Int, minutes = some m → isValidAlarmInterval minutes = true →
      handleCreateOneTimeTimer nowMs minutes s
        = ({ s with oneTimeAlarm := some m,
                    oneTimeStored := some ⟨nowMs + m * 60 * 1000, m⟩ }, .ok)) := by
  refine ⟨rfl, ?_, ?_, ?_⟩
  · intro m
    simp [isValidAlarmInterval, ONE_TIME_MIN, ONE_TIME_MAX]
  · intro h
    cases minutes with
    | none => rfl
    | some m => simp [handleCreateOneTimeTimer, h]
  · intro m hm hv
    subst hm
    simp [handleCreateOneTimeTimer, hv]

theorem C6_one_time_validation_witness :
    handleCreateOneTimeTimer 0 (some 5) ⟨none, none, 0⟩
      = (⟨some 5, some ⟨0 + 5 * 60 * 1000, 5⟩, 0⟩, .ok) ∧
    handleCreateOneTimeTimer 0 (some 0) ⟨none, none, 0⟩
      = (⟨none, none, 0⟩, .invalidTimerValue) ∧
    handleCreateOneTimeTimer 0 (some 121) ⟨none, none, 0⟩
      = (⟨none, none, 0⟩, .invalidTimerValue) ∧
    handleCreateOneTimeTimer 0 none ⟨none, none, 0⟩
      = (⟨none, none, 0⟩, .invalidTimerValue) :=
  ⟨(C6_one_time_validation 0 (some 5) ⟨none, none, 0⟩).2.2.2 5 rfl (by decide),
   (C6_one_time_validation 0 (some 0) ⟨none, none, 0⟩).2.2.1 (by decide),
   (C6_one_time_validation 0 (some 121) ⟨none, none, 0⟩).2.2.1 (by decide),
   (C6_one_time_validation 0 none ⟨none, none, 0⟩).2.2.1 rfl⟩

theorem stepTimer_no_create (s : BgTimerState) (e : BgEvent)
    (he : isCreateEvent e = false) (ha : s.oneTimeAlarm = none)
    (hs : s.oneTimeStored = none) : stepTimer s e = s := by
  obtain ⟨a, st, c⟩ := s
  have ha' : a = none := ha
  have hs' : st = none := hs
  subst ha'
  subst hs'
  cases e with
  | createTimer n m => simp [isCreateEvent] at he
  | cancelTimer => rfl
  | fireOneTime => rfl

theorem runTimer_no_create (evs : List BgEvent) : ∀ (s : BgTimerState),
    (∀ e ∈ evs, isCreateEvent e = false) → s.oneTimeAlarm = none →
    s.oneTimeStored = none → runTimer s evs = s := by
  induction evs with
  | nil => intro s _ _ _; rfl
  | cons e evs ih =>
    intro s h ha hs
    have h1 : isCreateEvent e = false := h e (by simp)
    have hstep := stepTimer_no_create s e h1 ha hs
    have hrun : runTimer s (e :: evs) = runTimer (stepTimer s e) evs := rfl
    rw [hrun, hstep]
    exact ih s (fun x hx => h x (by simp [hx])) ha hs

/-- C9: after an explicit cancel of the one-shot timer, the alarm and
the persisted resumption state are absent, and along any subsequent
event sequence without a new create request no timerComplete message is
ever emitted (the completion count never grows) and the resumption
state stays absent; this also covers cancelling when no one-shot timer
exists, which is a no-op that leaves the resumption state absent. -/
theorem C9_cancel_before_fire (s : BgTimerState) (evs : List BgEvent)
    (h : ∀ e ∈ evs, isCreateEvent e = false) :
    (stepTimer s .cancelTimer).oneTimeAlarm = none ∧
    (stepTimer s .cancelTimer).oneTimeStored = none ∧
    (runTimer (stepTimer s .cancelTimer) evs).timerCompleteCount = s.timerCompleteCount ∧
    (runTimer (stepTimer s .cancelTimer) evs).oneTimeStored = none := by
  have ha : (stepTimer s .cancelTimer).oneTimeAlarm = none := rfl
  have hs : (stepTimer s .cancelTimer).oneTimeStored = none := rfl
  have hrun := runTimer_no_create evs (stepTimer s .cancelTimer) h ha hs
  exact ⟨ha, hs, by rw [hrun]; rfl, by rw [hrun]; exact hs⟩

theorem C9_cancel_before_fire_witness :
    (stepTimer ⟨some 5, some ⟨300000, 5⟩, 0⟩ .cancelTimer).oneTimeAlarm = none ∧
    (stepTimer ⟨some 5, some ⟨300000, 5⟩, 0⟩ .cancelTimer).oneTimeStored = none ∧
    (runTimer (stepTimer ⟨some 5, some ⟨300000, 5⟩, 0⟩ .cancelTimer)
        [BgEvent.fireOneTime, BgEvent.cancelTimer]).timerCompleteCount = 0 ∧
    (runTimer (stepTimer ⟨some 5, some ⟨300000, 5⟩, 0⟩ .cancelTimer)
        [BgEvent.fireOneTime, BgEvent.cancelTimer]).oneTimeStored = none :=
  C9_cancel_before_fire ⟨some 5, some ⟨300000, 5⟩, 0⟩
    [BgEvent.fireOneTime, BgEvent.cancelTimer] (by decide)

theorem startsWithWater_water_append (s : String) :
    startsWithWater ("water_" ++ s) = true := by
  simp [startsWithWater, String.data_append]

/-- C7: a water alarm fire creates a notification with exactly the two
buttons Log Water (index 0) and Skip (index 1), an identifier that is
water_ followed by the current timestamp, and a persist-until-dismissed
(requireInteraction) flag that is true exactly on non-macOS platforms;
a later click at button index 0 on any identifier carrying the water_
marker appends exactly one increment operation to the queue, a click at
index 1 appends none, and both clear the notification. -/
theorem C7_water_notification (storedSoundEnabled : Option Bool) (isMacOS : Bool)
    (nowMs : Int) (suffix : String) (queue : List WaterOp) :
    (onAlarmNotification .water storedSoundEnabled isMacOS nowMs).buttons
        = some ["Log Water", "Skip"] ∧
    (onAlarmNotification .water storedSoundEnabled isMacOS nowMs).id
        = some ("water_" ++ toString nowMs) ∧
    (onAlarmNotification .water storedSoundEnabled isMacOS nowMs).requireInteraction
        = some (!isMacOS) ∧
    onButtonClicked ("water_" ++ suffix) 0 queue = (queue ++ [⟨0⟩], true) ∧
    onButtonClicked ("water_" ++ suffix) 1 queue = (queue, true) := by
  refine ⟨rfl, rfl, rfl, ?_, ?_⟩ <;>
    simp [onButtonClicked, startsWithWater_water_append]

/-- C8: for every firing alarm the notification silent flag equals the
negation of the resolved sound-enabled setting except on macOS, where
the auxiliary offscreen sound path is responsible for audio and the
notification is forced silent regardless of the setting. -/
theorem C8_silent_flag (name : AlarmName) (storedSoundEnabled : Option Bool)
    (isMacOS : Bool) (nowMs : Int) :
    (onAlarmNotification name storedSoundEnabled isMacOS nowMs).silent
      = (if isMacOS then true else !(storedSoundEnabled.getD DEFAULT_SOUND_ENABLED)) := by
  cases name <;> rfl
